import Mathlib

/-!
# Verification of the coldjot email-sequence engine

Shallow embedding of the orchestration core of the coldjot repository:
the schedule generator (`apps/queue/src/lib/schedule/index.ts`), the
schedule sweeper (`apps/queue/src/services/jobs/schedule/processor.ts`),
the sequence control API (`apps/queue/src/routes/sequence/controller.ts`
and its helper module), the tracking redirector
(`apps/web/src/app/api/track/[...slug]/route.ts`) and the inbound Gmail
event pipeline (`apps/web/src/app/api/gmail/notifications/route.ts`).

Machine conventions:
* instants are Nat milliseconds on the zone-local timeline (luxon's
  `setZone`/`toUTC` pair is an instant-preserving bijection, modelled as a
  fixed offset, so statements about the zone-local view of a returned
  instant are statements about the local values computed here; DST is out
  of scope);
* JavaScript truthiness of optional numbers and strings is modelled
  explicitly (`0`, `""` and `null`/`undefined` are falsy);
* database `findFirst`/`findMany`/`updateMany` calls become
  `List.find?`/`List.filter`/`List.map` over explicit state.
-/

/-- JS truthiness of an optional number (`undefined`, `null` and `0` are falsy). -/
def jsTruthyNat : Option Nat → Bool
  | some n => n != 0
  | none => false

/-- JS truthiness of an optional string (`undefined`, `null` and the empty string are falsy). -/
def jsTruthyStr : Option String → Bool
  | some s => s != ""
  | none => false

/-- JS `a || b` on optional strings: falls through on falsy values. -/
def jsOrStr (a b : Option String) : Option String :=
  if jsTruthyStr a then a else b

/-! ## Data model: sequence steps

`SequenceStep` rows as selected by the queue service (schema
`part_000`, model `SequenceStep`): `stepType` and `timing` are stored
strings (defaults `"manual_email"` / `"immediate"`), `delayAmount` and
`delayUnit` are nullable. -/

structure SequenceStep where
  id : String
  stepType : String
  timing : String
  delayAmount : Option Nat
  delayUnit : Option String
  subject : Option String
  replyToThread : Bool
  order : Nat
  deriving Repr, DecidableEq

/-- Modelled from the spec: the `StepTypeEnum` / `TimingType` string
constants live in the `@mailjot/types` package, which is not part of the
source snapshot. The spec names the step types `manual_email`,
`automated_email`, `wait` and the timings `immediate`, `delay`; the
scheduler dispatches on `step.stepType.toUpperCase()` and compares
`step.timing` directly against `TimingType`, so the step-type constants
are the upper-cased names and the timing constants the stored lowercase
names. -/
def StepTypeEnum.WAIT : String := "WAIT"

def StepTypeEnum.MANUAL_EMAIL : String := "MANUAL_EMAIL"

def StepTypeEnum.AUTOMATED_EMAIL : String := "AUTOMATED_EMAIL"

def TimingType.IMMEDIATE : String := "immediate"

def TimingType.DELAY : String := "delay"

/-! ## Scheduler (`ScheduleGenerator`, `apps/queue/src/lib/schedule/index.ts`) -/

/-- `String.prototype.toUpperCase()` on the ASCII identifiers used for
step types (kernel-computable model of the library call). -/
def strToUpper (s : String) : String :=
  String.mk (s.data.map Char.toUpper)

/-- `DEFAULT_DELAY = 30` minutes (line 41). -/
def DEFAULT_DELAY : Nat := 30

/-- `ScheduleGenerator.convertToMinutes` (lines 334-345). -/
def convertToMinutes (amount : Nat) (unit : String) : Nat :=
  if unit = "minutes" then amount
  else if unit = "hours" then amount * 60
  else if unit = "days" then amount * 24 * 60
  else 60

/-- `ScheduleGenerator.calculateBaseDelay` (lines 251-332): base delay in
minutes.  For `WAIT` steps with truthy `delayAmount` and `delayUnit` the
amount is converted through `convertToMinutes`; for email steps with
`timing === TimingType.DELAY` and truthy `delayAmount` the raw
`delayAmount` is used directly (`delay = step.delayAmount`, line 284) —
`delayUnit` is not consulted.  The `delay > DEFAULT_DELAY` branch
(lines 302-313) applies `max delay DEFAULT_DELAY`, a no-op, kept for
fidelity.  Demo mode caps the result at 480 minutes. -/
def calculateBaseDelay (step : SequenceStep) (isDemoMode : Bool) : Nat :=
  let st := strToUpper step.stepType
  let delay :=
    if st = StepTypeEnum.WAIT then
      if !(jsTruthyNat step.delayAmount && jsTruthyStr step.delayUnit) then DEFAULT_DELAY
      else convertToMinutes (step.delayAmount.getD 0) (step.delayUnit.getD "")
    else if st = StepTypeEnum.MANUAL_EMAIL ∨ st = StepTypeEnum.AUTOMATED_EMAIL then
      if step.timing = TimingType.IMMEDIATE then 0
      else if step.timing = TimingType.DELAY ∧ jsTruthyNat step.delayAmount then
        step.delayAmount.getD 0
      else DEFAULT_DELAY
    else DEFAULT_DELAY
  let delay := if delay > DEFAULT_DELAY then max delay DEFAULT_DELAY else delay
  if isDemoMode then min delay 480 else delay

/-- A step with `timing=delay`, `delayAmount=2`, `delayUnit=days`
(the concrete input of the C1 claim). -/
def stepTwoDays : SequenceStep :=
  { id := "s1", stepType := "manual_email", timing := "delay",
    delayAmount := some 2, delayUnit := some "days",
    subject := some "Hi", replyToThread := false, order := 0 }

/-- **C1, counterexample.** The claim says a `manual_email` step with
`timing=delay`, `delayAmount=2` and `delayUnit=days` yields a base delay
of `2*24*60 = 2880` minutes.  The code returns `2`: the email branch of
`calculateBaseDelay` uses `step.delayAmount` verbatim and never calls
`convertToMinutes`, so the unit is ignored. -/
theorem calculateBaseDelay_ignores_delayUnit_ce :
    calculateBaseDelay stepTwoDays false = 2 ∧ (2 : Nat) ≠ 2880 := by
  constructor
  · decide
  · decide

/-- **C1, amended.** For an email step (`manual_email` or
`automated_email`) with `timing=delay` and a truthy `delayAmount = n`,
the base delay is `n` minutes regardless of `delayUnit`: the unit is
consulted only for `wait` steps. -/
theorem calculateBaseDelay_email_delay (step : SequenceStep) (n : Nat)
    (hty : strToUpper step.stepType = StepTypeEnum.MANUAL_EMAIL ∨
      strToUpper step.stepType = StepTypeEnum.AUTOMATED_EMAIL)
    (htiming : step.timing = TimingType.DELAY)
    (hamt : step.delayAmount = some n) (hn : n ≠ 0) :
    calculateBaseDelay step false = n := by
  have hwait : ¬ strToUpper step.stepType = StepTypeEnum.WAIT := by
    rcases hty with h | h <;> simp [h, StepTypeEnum.WAIT, StepTypeEnum.MANUAL_EMAIL,
      StepTypeEnum.AUTOMATED_EMAIL]
  have hmax : (if DEFAULT_DELAY < n then max n DEFAULT_DELAY else n) = n := by
    rcases Nat.lt_or_ge DEFAULT_DELAY n with h | h
    · simp [h, Nat.max_eq_left (Nat.le_of_lt h)]
    · simp [Nat.not_lt.mpr h]
  unfold calculateBaseDelay
  simp only [hwait, if_neg, hty, if_pos, htiming, hamt, jsTruthyNat,
    TimingType.DELAY, TimingType.IMMEDIATE]
  simp only [show ("delay" = "immediate") = False by simp, if_false, ite_false]
  simp [hn, hmax]

/-- **C1, witness** for the amended theorem at `stepTwoDays`. -/
theorem calculateBaseDelay_email_delay_witness :
    calculateBaseDelay stepTwoDays false = 2 :=
  calculateBaseDelay_email_delay stepTwoDays 2 (Or.inl (by decide)) rfl rfl (by decide)

/-! ## Business-hours machinery (scheduler, continued)

Zone-local instants are Nat milliseconds; day 0 of the local epoch is a
Monday, so luxon's `weekday` (Monday = 1 … Sunday = 7) of an instant `t`
is `t / msPerDay % 7 + 1`.  `BusinessHours` carries `workHoursStart` /
`workHoursEnd` already split at the `":"` (the source parses the
`"HH:MM"` strings with `split(":").map(Number)`), and holidays as
zone-local day indices (the source compares holidays with
`hasSame(_, "day")` in the configured zone). -/

def msPerDay : Nat := 86400000

def dayIndex (t : Nat) : Nat := t / msPerDay

/-- luxon `dt.weekday % 7` as used by `workDays.includes(dt.weekday % 7)`. -/
def weekdayMod7 (t : Nat) : Nat := (dayIndex t % 7 + 1) % 7

structure BusinessHours where
  workDays : List Nat
  startHour : Nat
  startMinute : Nat
  endHour : Nat
  endMinute : Nat
  holidays : List Nat
  deriving Repr, DecidableEq

/-- luxon `dt.set({hour, minute, second: 0})`: replaces hour, minute and
second but keeps the day and the millisecond component. -/
def setHMS0 (t h m : Nat) : Nat :=
  dayIndex t * msPerDay + h * 3600000 + m * 60000 + t % 1000

/-- The `dayStart` computed inside `isValidBusinessTime` /
`adjustToBusinessHours` (lines 374-378, 435-439). -/
def dayStartOf (bh : BusinessHours) (t : Nat) : Nat :=
  setHMS0 t bh.startHour bh.startMinute

/-- The `dayEnd` computed inside `isValidBusinessTime` /
`adjustToBusinessHours` (lines 379, 440-444). -/
def dayEndOf (bh : BusinessHours) (t : Nat) : Nat :=
  setHMS0 t bh.endHour bh.endMinute

/-- `ScheduleGenerator.isValidBusinessTime` (lines 347-394); the first
argument is the process-wide `DEMO_MODE` flag, which short-circuits to
`true`. -/
def isValidBusinessTime (demoMode : Bool) (t : Nat) (bh : BusinessHours) : Bool :=
  if demoMode then true
  else
    let isHoliday := bh.holidays.contains (dayIndex t)
    let isWorkDay := bh.workDays.contains (weekdayMod7 t)
    !isHoliday && isWorkDay && decide (dayStartOf bh t ≤ t) && decide (t ≤ dayEndOf bh t)

/-- `date.startOf("day").set({hour: startHour, minute: startMinute})`:
the business-day start of day `d`, with zero seconds and milliseconds. -/
def businessStart (bh : BusinessHours) (d : Nat) : Nat :=
  d * msPerDay + bh.startHour * 3600000 + bh.startMinute * 60000

/-- Day-level validity used by `nextBusinessStart`: not a holiday and a
work day. -/
def isValidBusinessDay (bh : BusinessHours) (d : Nat) : Bool :=
  !bh.holidays.contains d && bh.workDays.contains ((d % 7 + 1) % 7)

/-- The candidate loop of `ScheduleGenerator.nextBusinessStart`
(lines 534-586): checks up to `fuel` consecutive days starting at `d`,
returning the business start of the first valid one (or of the day after
the last candidate when the fuel runs out, as the source does after 14
iterations). -/
def nextBusinessStartAux (bh : BusinessHours) (d : Nat) : Nat → Nat
  | 0 => businessStart bh d
  | fuel + 1 => if isValidBusinessDay bh d then businessStart bh d
      else nextBusinessStartAux bh (d + 1) fuel

/-- `ScheduleGenerator.nextBusinessStart` with the source's 14-iteration
bound. -/
def nextBusinessStart (bh : BusinessHours) (t : Nat) : Nat :=
  nextBusinessStartAux bh (dayIndex t) 14

/-- One iteration of the `while` loop of
`ScheduleGenerator.adjustToBusinessHours` (lines 426-476): jump to the
next business start when on an invalid day or before hours, or to the
next business start after tomorrow's midnight when past hours. -/
def adjustStep (bh : BusinessHours) (t : Nat) : Nat :=
  if !bh.workDays.contains (weekdayMod7 t) || bh.holidays.contains (dayIndex t)
      || decide (t < dayStartOf bh t) then
    nextBusinessStart bh t
  else if decide (dayEndOf bh t < t) then
    nextBusinessStart bh (t + msPerDay)
  else t

/-- The bounded `while !isValidBusinessTime … && iteration < 14` loop of
`adjustToBusinessHours` (the loop only runs with `DEMO_MODE` false). -/
def adjustLoop (bh : BusinessHours) : Nat → Nat → Nat
  | 0, t => t
  | fuel + 1, t =>
      if isValidBusinessTime false t bh then t else adjustLoop bh fuel (adjustStep bh t)

/-- `ScheduleGenerator.adjustToBusinessHours` (lines 396-501).  The three
`Math.random()` draws of the intraday distribution (minute offset within
the business-day window, second, millisecond) are explicit inputs
`distMinutes`, `sec`, `ms`; after the loop the source rebases the result
to `startHour:startMinute:sec.ms` of the reached day and adds
`distMinutes` minutes. -/
def adjustToBusinessHours (demoMode : Bool) (t : Nat) (bh : BusinessHours)
    (distMinutes sec ms : Nat) : Nat :=
  if demoMode then t
  else
    let r := adjustLoop bh 14 t
    dayIndex r * msPerDay + bh.startHour * 3600000 + bh.startMinute * 60000
      + sec * 1000 + ms + distMinutes * 60000

/-- luxon `dt.plus({hours: 1}).set({minute: m})` as used in the
rate-limit adjustment (lines 166-168): add an hour, then replace the
minute, keeping day, hour, second and millisecond. -/
def plusHourSetMinute (t m : Nat) : Nat :=
  let t1 := t + 3600000
  dayIndex t1 * msPerDay + t1 % msPerDay / 3600000 * 3600000 + m * 60000 + t1 % 60000

/-- The `while (attempts < maxAttempts)` rate-limit loop of
`ScheduleGenerator.calculateNextRun` (lines 149-177).  `minuteAvail` /
`hourAvail` model `checkTimeSlotAvailability` (a store query on the
candidate instant); `rands` supplies, per attempt, the
`Math.floor(Math.random() * DISTRIBUTION_WINDOW)` minute jitter and the
`Math.floor(Math.random() * 60)` replacement minute. -/
def rateLoop (demoMode : Bool) (bh : BusinessHours) (minuteAvail hourAvail : Nat → Bool) :
    Nat → List (Nat × Nat) → Nat → Nat
  | 0, _, t => t
  | fuel + 1, rands, t =>
      if minuteAvail t && hourAvail t then t
      else
        let r := rands.headD (0, 0)
        let t1 := if !minuteAvail t then t + r.1 * 60000 else t
        let t2 := if !hourAvail t then plusHourSetMinute t1 r.2 else t1
        let t3 := if !isValidBusinessTime demoMode t2 bh then nextBusinessStart bh t2 else t2
        rateLoop demoMode bh minuteAvail hourAvail fuel rands.tail t3

/-- `ScheduleGenerator.calculateNextRun` (lines 79-204) on the zone-local
timeline: base delay, plus-minutes, optional business-hours adjustment
and the bounded rate-limit loop.  `demoMode` is the process-wide
`DEMO_MODE` flag (business-hours bypass), `isDemoMode` the per-call
parameter capping the base delay. -/
def calculateNextRun (demoMode isDemoMode : Bool) (now : Nat) (step : SequenceStep)
    (bh : Option BusinessHours) (distMinutes sec ms : Nat) (rands : List (Nat × Nat))
    (minuteAvail hourAvail : Nat → Bool) : Nat :=
  let target := now + calculateBaseDelay step isDemoMode * 60000
  match bh with
  | none => target
  | some b =>
      let localTarget := adjustToBusinessHours demoMode target b distMinutes sec ms
      rateLoop demoMode b minuteAvail hourAvail 5 rands localTarget

/-! ## Business-hours containment (C6) -/

/-- Reachability of a valid business day: from every day, some strictly
later day within the scheduler's 14-day search bound is a work day and
not a holiday (satisfied by any usual work-week configuration). -/
def validBizReach (bh : BusinessHours) : Prop :=
  ∀ d : Nat, ∃ k : Nat, 1 ≤ k ∧ k ≤ 13 ∧ isValidBusinessDay bh (d + k) = true

theorem businessStart_valid (bh : BusinessHours) (d : Nat)
    (hday : isValidBusinessDay bh d = true)
    (hsh : bh.startHour ≤ 23) (hsm : bh.startMinute ≤ 59)
    (hse : bh.startHour * 60 + bh.startMinute ≤ bh.endHour * 60 + bh.endMinute) :
    isValidBusinessTime false (businessStart bh d) bh = true := by
  unfold isValidBusinessDay at hday
  rw [Bool.and_eq_true] at hday
  obtain ⟨hhol, hwd⟩ := hday
  rw [Bool.not_eq_true'] at hhol
  have hdi : dayIndex (businessStart bh d) = d := by
    unfold dayIndex businessStart msPerDay
    omega
  unfold isValidBusinessTime weekdayMod7 dayStartOf dayEndOf setHMS0
  rw [if_neg (by simp)]
  rw [hdi, hhol, hwd]
  simp only [Bool.not_false, Bool.true_and, Bool.and_eq_true, decide_eq_true_eq]
  unfold businessStart msPerDay
  omega

theorem nextBusinessStartAux_finds (bh : BusinessHours) :
    ∀ (fuel d : Nat), (∃ j, j < fuel ∧ isValidBusinessDay bh (d + j) = true) →
      ∃ d2, isValidBusinessDay bh d2 = true ∧
        nextBusinessStartAux bh d fuel = businessStart bh d2 := by
  intro fuel
  induction fuel with
  | zero =>
      intro d h
      obtain ⟨j, hj, _⟩ := h
      omega
  | succ n ih =>
      intro d h
      by_cases hd : isValidBusinessDay bh d = true
      · exact ⟨d, hd, by unfold nextBusinessStartAux; rw [if_pos hd]⟩
      · obtain ⟨j, hj, hvalid⟩ := h
        have hj0 : j ≠ 0 := by
          intro h0
          rw [h0, Nat.add_zero] at hvalid
          exact hd hvalid
        obtain ⟨d2, h1, h2⟩ := ih (d + 1) ⟨j - 1, by omega, by
          have : d + 1 + (j - 1) = d + j := by omega
          rw [this]
          exact hvalid⟩
        exact ⟨d2, h1, by unfold nextBusinessStartAux; rw [if_neg hd]; exact h2⟩

theorem nextBusinessStart_valid (bh : BusinessHours) (t : Nat)
    (hreach : validBizReach bh)
    (hsh : bh.startHour ≤ 23) (hsm : bh.startMinute ≤ 59)
    (hse : bh.startHour * 60 + bh.startMinute ≤ bh.endHour * 60 + bh.endMinute) :
    isValidBusinessTime false (nextBusinessStart bh t) bh = true := by
  obtain ⟨k, hk1, hk2, hk3⟩ := hreach (dayIndex t)
  obtain ⟨d2, h1, h2⟩ := nextBusinessStartAux_finds bh 14 (dayIndex t) ⟨k, by omega, hk3⟩
  unfold nextBusinessStart
  rw [h2]
  exact businessStart_valid bh d2 h1 hsh hsm hse

theorem adjustStep_valid (bh : BusinessHours) (t : Nat)
    (hreach : validBizReach bh)
    (hsh : bh.startHour ≤ 23) (hsm : bh.startMinute ≤ 59)
    (hse : bh.startHour * 60 + bh.startMinute ≤ bh.endHour * 60 + bh.endMinute)
    (hinv : isValidBusinessTime false t bh = false) :
    isValidBusinessTime false (adjustStep bh t) bh = true := by
  unfold adjustStep
  by_cases h1 : (!bh.workDays.contains (weekdayMod7 t) || bh.holidays.contains (dayIndex t)
      || decide (t < dayStartOf bh t)) = true
  · rw [if_pos h1]
    exact nextBusinessStart_valid bh t hreach hsh hsm hse
  · rw [if_neg h1]
    by_cases h2 : decide (dayEndOf bh t < t) = true
    · rw [if_pos h2]
      exact nextBusinessStart_valid bh (t + msPerDay) hreach hsh hsm hse
    · exfalso
      simp only [Bool.or_eq_true, decide_eq_true_eq, not_or] at h1
      obtain ⟨⟨hwd, hhol⟩, hstart⟩ := h1
      have hwd2 : bh.workDays.contains (weekdayMod7 t) = true := by simpa using hwd
      have hhol2 : bh.holidays.contains (dayIndex t) = false := by simpa using hhol
      have hstart2 : dayStartOf bh t ≤ t := by omega
      have hend2 : t ≤ dayEndOf bh t := by
        have h2d : ¬ dayEndOf bh t < t := by simpa using h2
        omega
      unfold isValidBusinessTime at hinv
      rw [if_neg (by simp), hwd2, hhol2] at hinv
      simp [hstart2, hend2] at hinv

theorem adjustLoop_id_of_valid (bh : BusinessHours) (fuel t : Nat)
    (h : isValidBusinessTime false t bh = true) :
    adjustLoop bh fuel t = t := by
  cases fuel with
  | zero => rfl
  | succ n =>
      unfold adjustLoop
      rw [if_pos h]

theorem adjustLoop_valid (bh : BusinessHours) (fuel t : Nat)
    (hreach : validBizReach bh)
    (hsh : bh.startHour ≤ 23) (hsm : bh.startMinute ≤ 59)
    (hse : bh.startHour * 60 + bh.startMinute ≤ bh.endHour * 60 + bh.endMinute) :
    isValidBusinessTime false (adjustLoop bh (fuel + 1) t) bh = true := by
  by_cases hv : isValidBusinessTime false t bh = true
  · rw [adjustLoop_id_of_valid bh (fuel + 1) t hv]
    exact hv
  · have hstep := adjustStep_valid bh t hreach hsh hsm hse (Bool.not_eq_true _ ▸ by
      rw [Bool.not_eq_true] at hv ⊢
      exact hv)
    unfold adjustLoop
    rw [if_neg hv, adjustLoop_id_of_valid bh fuel _ hstep]
    exact hstep

theorem adjustToBusinessHours_valid (bh : BusinessHours) (t distMinutes sec ms : Nat)
    (hreach : validBizReach bh)
    (hsh : bh.startHour ≤ 23) (hsm : bh.startMinute ≤ 59)
    (heh : bh.endHour ≤ 23) (hem : bh.endMinute ≤ 59)
    (hlt : bh.startHour * 60 + bh.startMinute < bh.endHour * 60 + bh.endMinute)
    (hdist : distMinutes < bh.endHour * 60 + bh.endMinute - (bh.startHour * 60 + bh.startMinute))
    (hsec : sec ≤ 59) (hms : ms ≤ 999) :
    isValidBusinessTime false (adjustToBusinessHours false t bh distMinutes sec ms) bh = true := by
  have hse : bh.startHour * 60 + bh.startMinute ≤ bh.endHour * 60 + bh.endMinute :=
    Nat.le_of_lt hlt
  have hr := adjustLoop_valid bh 13 t hreach hsh hsm hse
  set r := adjustLoop bh 14 t with hrdef
  unfold isValidBusinessTime at hr
  rw [if_neg (by simp)] at hr
  simp only [Bool.and_eq_true, Bool.not_eq_true', decide_eq_true_eq] at hr
  obtain ⟨⟨⟨hhol, hwd⟩, _⟩, _⟩ := hr
  unfold adjustToBusinessHours
  rw [if_neg (by simp)]
  rw [← hrdef]
  set f := dayIndex r * msPerDay + bh.startHour * 3600000 + bh.startMinute * 60000
    + sec * 1000 + ms + distMinutes * 60000 with hfdef
  have hdi : dayIndex f = dayIndex r := by
    unfold dayIndex msPerDay at hfdef ⊢
    omega
  unfold isValidBusinessTime
  rw [if_neg (by simp)]
  rw [hdi, hhol]
  have hwk : weekdayMod7 f = weekdayMod7 r := by
    unfold weekdayMod7
    rw [hdi]
  rw [hwk, hwd]
  simp only [Bool.not_false, Bool.true_and, Bool.and_eq_true, decide_eq_true_eq]
  unfold dayStartOf dayEndOf setHMS0
  rw [hdi]
  unfold dayIndex msPerDay at hfdef ⊢
  omega

theorem validOrNextStart (bh : BusinessHours) (t2 : Nat)
    (hreach : validBizReach bh)
    (hsh : bh.startHour ≤ 23) (hsm : bh.startMinute ≤ 59)
    (hse : bh.startHour * 60 + bh.startMinute ≤ bh.endHour * 60 + bh.endMinute) :
    isValidBusinessTime false
      (if !isValidBusinessTime false t2 bh then nextBusinessStart bh t2 else t2) bh
      = true := by
  by_cases hv : isValidBusinessTime false t2 bh = true
  · simp [hv]
  · rw [Bool.not_eq_true] at hv
    simp only [hv, Bool.not_false, if_pos]
    exact nextBusinessStart_valid bh t2 hreach hsh hsm hse

theorem rateLoop_valid (bh : BusinessHours) (minuteAvail hourAvail : Nat → Bool)
    (hreach : validBizReach bh)
    (hsh : bh.startHour ≤ 23) (hsm : bh.startMinute ≤ 59)
    (hse : bh.startHour * 60 + bh.startMinute ≤ bh.endHour * 60 + bh.endMinute) :
    ∀ (fuel : Nat) (rands : List (Nat × Nat)) (t : Nat),
      isValidBusinessTime false t bh = true →
      isValidBusinessTime false (rateLoop false bh minuteAvail hourAvail fuel rands t) bh
        = true := by
  intro fuel
  induction fuel with
  | zero =>
      intro rands t ht
      exact ht
  | succ n ih =>
      intro rands t ht
      unfold rateLoop
      by_cases hav : (minuteAvail t && hourAvail t) = true
      · rw [if_pos hav]
        exact ht
      · rw [if_neg hav]
        exact ih rands.tail _ (validOrNextStart bh _ hreach hsh hsm hse)

/-- **C6.** `ScheduleGenerator.calculateNextRun` with a business-hours
configuration, `DEMO_MODE` false and a non-empty `workDays` set: the
returned send instant, viewed on the configured timezone's local
timeline, is a valid business time — inside `[workHoursStart,
workHoursEnd]` on a work day that is not a holiday.  Preconditions: the
`HH:MM` fields are well-formed with `workHoursStart` strictly before
`workHoursEnd`, a valid business day is reachable within the 14-day
search bound from every day, and the random draws respect their
JavaScript ranges (`Math.floor(Math.random()*businessDayMinutes)`,
`*60`, `*1000`). -/
theorem calculateNextRun_business_hours (now distMinutes sec ms : Nat)
    (step : SequenceStep) (isDemoMode : Bool) (bh : BusinessHours)
    (rands : List (Nat × Nat)) (minuteAvail hourAvail : Nat → Bool)
    (_hwdne : bh.workDays ≠ [])
    (hreach : validBizReach bh)
    (hsh : bh.startHour ≤ 23) (hsm : bh.startMinute ≤ 59)
    (heh : bh.endHour ≤ 23) (hem : bh.endMinute ≤ 59)
    (hlt : bh.startHour * 60 + bh.startMinute < bh.endHour * 60 + bh.endMinute)
    (hdist : distMinutes < bh.endHour * 60 + bh.endMinute - (bh.startHour * 60 + bh.startMinute))
    (hsec : sec ≤ 59) (hms : ms ≤ 999) :
    isValidBusinessTime false
      (calculateNextRun false isDemoMode now step (some bh) distMinutes sec ms rands
        minuteAvail hourAvail) bh = true := by
  unfold calculateNextRun
  exact rateLoop_valid bh minuteAvail hourAvail hreach hsh hsm (Nat.le_of_lt hlt) 5 rands _
    (adjustToBusinessHours_valid bh _ distMinutes sec ms hreach hsh hsm heh hem hlt hdist
      hsec hms)

/-- Monday-to-Friday 09:00-17:00 with no holidays (the default business
hours of the queue helper). -/
def bhMonFri : BusinessHours :=
  { workDays := [1, 2, 3, 4, 5], startHour := 9, startMinute := 0,
    endHour := 17, endMinute := 0, holidays := [] }

theorem bhMonFri_reach : validBizReach bhMonFri := by
  intro d
  refine ⟨7 - d % 7, by omega, by omega, ?_⟩
  have h7 : (d + (7 - d % 7)) % 7 = 0 := by omega
  unfold isValidBusinessDay bhMonFri
  rw [h7]
  rfl

/-- **C6, witness**: the containment theorem applied to Mon-Fri 09:00-17:00
hours, an immediate step, time zero and availability oracles that always
admit. -/
theorem calculateNextRun_business_hours_witness :
    isValidBusinessTime false
      (calculateNextRun false false 0 stepTwoDays (some bhMonFri) 0 0 0 []
        (fun _ => true) (fun _ => true)) bhMonFri = true :=
  calculateNextRun_business_hours 0 0 0 0 stepTwoDays false bhMonFri []
    (fun _ => true) (fun _ => true) (by decide) bhMonFri_reach
    (by decide) (by decide) (by decide) (by decide) (by decide) (by decide)
    (by decide) (by decide)

/-! ## Schedule sweeper (`ScheduleProcessor`,
`apps/queue/src/services/jobs/schedule/processor.ts`)

The sweeper's call to `schedulingService.calculateNextRun` is modelled as
an injected function `calcNext` (the scheduling service is a process-wide
singleton dependency of the processor); the rate limiter's
`checkRateLimit` is the injected predicate `rateAllowed`.  The
`prisma.sequenceStep.findFirst` existence re-check of the deleted-step
branch is modelled as a lookup in the loaded (ordered) step list, i.e.
the store is assumed to agree with the rows just loaded in the same
tick. -/

/-- The `email-job` payload assembled by `ScheduleProcessor.processEmail`
(lines 430-447). -/
structure EmailJobData where
  sequenceId : String
  contactId : String
  stepId : String
  userId : String
  toAddr : String
  subject : String
  threadId : Option String
  scheduledTime : Nat
  deriving Repr, DecidableEq

/-- The sequence relation selected with each due row (lines 111-149):
steps ordered by `order`, optional business hours, plus the status
column of the `Sequence` table (not selected by the sweeper's query). -/
structure SeqData where
  id : String
  userId : String
  status : String
  steps : List SequenceStep
  businessHours : Option BusinessHours
  deriving Repr, DecidableEq

/-- A `SequenceContact` row as selected by the sweeper
(`SequenceContactWithRelations`, lines 32-48). -/
structure SCRow where
  id : String
  sequenceId : String
  contactId : String
  status : String
  currentStep : Nat
  nextScheduledAt : Option Nat
  completed : Bool
  completedAt : Option Nat
  lastProcessedAt : Option Nat
  threadId : Option String
  contactEmail : String
  sequence : SeqData
  deriving Repr, DecidableEq

/-- JS array indexing with a possibly negative index
(`sequence.steps[currentStep.order - 1]` yields `undefined` below 0). -/
def stepAtIntIndex (steps : List SequenceStep) (i : Int) : Option SequenceStep :=
  if i < 0 then none else steps[i.toNat]?

/-- `ScheduleProcessor.processEmail` (lines 251-551): rate-limit check,
current-step lookup (with the deleted-step cleanup branch), next-send
computation via the scheduling service, email-job assembly, and the
progress update of step 6 (lines 476-496).  Returns the enqueued job (if
any) and the updated row. -/
def processEmail (rateAllowed : String → String → String → Bool)
    (calcNext : Nat → SequenceStep → Option BusinessHours → Nat)
    (retryDelay now : Nat) (row : SCRow) : Option EmailJobData × SCRow :=
  if !(rateAllowed row.sequence.userId row.sequence.id row.contactId) then
    (none, row)
  else
    match row.sequence.steps[row.currentStep]? with
    | none =>
        if row.sequence.steps.any (fun s => s.order == row.currentStep) then
          (none, { row with nextScheduledAt := some (now + retryDelay) })
        else if row.sequence.steps.length ≤ row.currentStep + 1 then
          (none, { row with completed := true, completedAt := some now,
                            nextScheduledAt := none })
        else
          (none, { row with currentStep := row.currentStep + 1,
                            nextScheduledAt := some now })
    | some currentStep =>
        let nextSendTime := calcNext now currentStep row.sequence.businessHours
        let previousSubject :=
          ((stepAtIntIndex row.sequence.steps ((currentStep.order : Int) - 1)).bind
            SequenceStep.subject).getD ""
        let subject : Option String :=
          if currentStep.replyToThread then some ("Re: " ++ previousSubject)
          else currentStep.subject
        let job : EmailJobData :=
          { sequenceId := row.sequence.id
            contactId := row.contactId
            stepId := currentStep.id
            userId := row.sequence.userId
            toAddr := row.contactEmail
            subject := (jsOrStr (jsOrStr subject currentStep.subject) (some "")).getD ""
            threadId :=
              if currentStep.replyToThread && jsTruthyStr row.threadId then row.threadId
              else none
            scheduledTime := nextSendTime }
        let isLastStep := row.sequence.steps.length ≤ row.currentStep + 1
        (some job,
          { row with
              lastProcessedAt := some now
              nextScheduledAt := if isLastStep then none else some nextSendTime
              currentStep := row.currentStep + 1
              completed := isLastStep
              completedAt := if isLastStep then some now else none })

/-- Due-row selection of `ScheduleProcessor.processScheduledEmails`
(lines 93-157): `nextScheduledAt ≤ now` and `completed = false` — the
only two conditions of the query. -/
def isDueRow (now : Nat) (r : SCRow) : Bool :=
  (match r.nextScheduledAt with
    | some t => decide (t ≤ now)
    | none => false) && !r.completed

/-- One sweeper tick (`processScheduledEmails`): select the due rows and
run `processEmail` on each, collecting the enqueued email jobs and the
updated rows. -/
def sweepTick (rateAllowed : String → String → String → Bool)
    (calcNext : Nat → SequenceStep → Option BusinessHours → Nat)
    (retryDelay now : Nat) (rows : List SCRow) : List EmailJobData × List SCRow :=
  let due := rows.filter (isDueRow now)
  (due.filterMap (fun r => (processEmail rateAllowed calcNext retryDelay now r).fst),
    due.map (fun r => (processEmail rateAllowed calcNext retryDelay now r).snd))

/-- The scheduling service as the sweeper sees it: the embedded
`calculateNextRun` with `DEMO_MODE` and the demo parameter false and
fixed (zero) random draws and always-available rate slots. -/
def schedCalc (now : Nat) (step : SequenceStep) (bh : Option BusinessHours) : Nat :=
  calculateNextRun false false now step bh 0 0 0 [] (fun _ => true) (fun _ => true)

/-- A rate limiter that always admits. -/
def allowAll : String → String → String → Bool := fun _ _ _ => true

/-- Step 0 of the two-step test sequence: immediate email. -/
def stepImmediate : SequenceStep :=
  { id := "st0", stepType := "manual_email", timing := "immediate",
    delayAmount := none, delayUnit := none,
    subject := some "Hello", replyToThread := false, order := 0 }

/-- Step 1 of the two-step test sequence: 5-minute delay email. -/
def stepDelay5 : SequenceStep :=
  { id := "st1", stepType := "manual_email", timing := "delay",
    delayAmount := some 5, delayUnit := some "minutes",
    subject := some "Follow up", replyToThread := false, order := 1 }

/-- An active two-step sequence without business hours. -/
def seqTwoSteps : SeqData :=
  { id := "seq1", userId := "u1", status := "active",
    steps := [stepImmediate, stepDelay5], businessHours := none }

/-- A due, not-completed row whose status is `replied` and whose next
step (index 1) is still pending — the post-reply state left by the
inbound pipeline, whose status update touches only `status` and
`updatedAt`. -/
def rowReplied : SCRow :=
  { id := "r1", sequenceId := "seq1", contactId := "c1", status := "replied",
    currentStep := 1, nextScheduledAt := some 500, completed := false,
    completedAt := none, lastProcessedAt := none, threadId := none,
    contactEmail := "a@ex.com", sequence := seqTwoSteps }

/-- **C2, counterexample.** A row with `status = replied`,
`completed = false` and a due `nextScheduledAt` is selected by the
sweeper (whose query filters only on those two columns) and an email job
for step 1 is enqueued for it: `replied` does not short-circuit the
sweep. -/
theorem sweepTick_enqueues_replied_ce :
    rowReplied.status = "replied" ∧
      ((sweepTick allowAll schedCalc 300000 1000 [rowReplied]).1.map
        (fun j => j.contactId)) = ["c1"] := by
  constructor
  · rfl
  · decide

/-- **C2, amended.** The sweeper skips a row only when `completed = true`
or `nextScheduledAt` is null or in the future: a row whose status is
`replied` but which is due and not completed is processed like any other
row, and (rate limits and step lookup permitting) an email job for its
current step is enqueued — the contact status column is never consulted
by the sweep. -/
theorem sweepTick_ignores_status (rateAllowed : String → String → String → Bool)
    (calcNext : Nat → SequenceStep → Option BusinessHours → Nat)
    (retryDelay now t : Nat) (row : SCRow) (st : SequenceStep)
    (_hstatus : row.status = "replied")
    (hcomp : row.completed = false)
    (hsched : row.nextScheduledAt = some t) (hdue : t ≤ now)
    (hrate : rateAllowed row.sequence.userId row.sequence.id row.contactId = true)
    (hstep : row.sequence.steps[row.currentStep]? = some st) :
    (sweepTick rateAllowed calcNext retryDelay now [row]).1.length = 1 := by
  have hdue2 : isDueRow now row = true := by
    unfold isDueRow
    rw [hsched, hcomp]
    simp [hdue]
  unfold sweepTick
  simp only [List.filter, hdue2, List.filterMap]
  unfold processEmail
  rw [hrate, hstep]
  simp

/-- **C2, witness** for the amended theorem at the concrete replied row. -/
theorem sweepTick_ignores_status_witness :
    (sweepTick allowAll schedCalc 300000 1000 [rowReplied]).1.length = 1 :=
  sweepTick_ignores_status allowAll schedCalc 300000 1000 500 rowReplied stepDelay5
    rfl rfl rfl (by decide) rfl (by decide)

/-- The two-step sequence owned by `u1`, but paused
(`POST /sequences/{id}/pause` sets `status = "paused"` and nothing
else on the rows — `pauseSequence`, controller lines 120-151). -/
def seqPaused : SeqData :=
  { id := "seq2", userId := "u1", status := "paused",
    steps := [stepImmediate, stepDelay5], businessHours := none }

/-- A due row of the paused sequence. -/
def rowOfPaused : SCRow :=
  { id := "r2", sequenceId := "seq2", contactId := "c2", status := "sent",
    currentStep := 1, nextScheduledAt := some 500, completed := false,
    completedAt := none, lastProcessedAt := none, threadId := none,
    contactEmail := "b@ex.com", sequence := seqPaused }

/-- **C3.** The sweeper enqueues an email job for a due row even though
its sequence has `status = "paused"`: neither the due-row query
(`nextScheduledAt ≤ now`, `completed = false`) nor `processEmail` ever
reads the sequence status, so pausing does not stop the sweep (the
launch-path helper `processContactShared` does carry this guard, the
sweeper does not). -/
theorem sweepTick_enqueues_paused :
    rowOfPaused.sequence.status = "paused" ∧
      ((sweepTick allowAll schedCalc 300000 1000 [rowOfPaused]).1.map
        (fun j => j.contactId)) = ["c2"] := by
  constructor
  · rfl
  · decide

/-- A due row of the active two-step sequence still at step 0 (the
concrete input of the C4 counterexample). -/
def rowAtStep0 : SCRow :=
  { id := "r3", sequenceId := "seq1", contactId := "c3", status := "sent",
    currentStep := 0, nextScheduledAt := some 500, completed := false,
    completedAt := none, lastProcessedAt := none, threadId := none,
    contactEmail := "d@ex.com", sequence := seqTwoSteps }

/-- **C4, counterexample.** Processing the due row at step 0 (an
immediate step) writes `nextScheduledAt = now + 0 = 1000` — the send
instant the scheduler computes for the step *just enqueued* — while the
claim requires the send instant of the *following* step `stepDelay5`,
which is `1000 + 5·60000 = 301000`.  The two differ, so the row's new
`nextScheduledAt` is not the following step's send instant. -/
theorem processEmail_nextScheduledAt_ce :
    (processEmail allowAll schedCalc 300000 1000 rowAtStep0).2.nextScheduledAt = some 1000 ∧
      schedCalc 1000 stepDelay5 none = 301000 ∧ (1000 : Nat) ≠ 301000 := by
  refine ⟨by decide, by decide, by decide⟩

/-- **C4, amended.** When the sweeper processes a due row whose current
step exists (and the rate limit admits): the enqueued job's
`scheduledTime` and — when the current step is not the last — the new
`nextScheduledAt` written onto the row are both the send instant the
scheduler computes for the *current* step (the one just enqueued);
`currentStep` is incremented by one; and when the current step is the
last step the row gets `completed = true`, `completedAt = now`,
`nextScheduledAt = null`. -/
theorem processEmail_progress_update (rateAllowed : String → String → String → Bool)
    (calcNext : Nat → SequenceStep → Option BusinessHours → Nat)
    (retryDelay now : Nat) (row : SCRow) (st : SequenceStep)
    (hrate : rateAllowed row.sequence.userId row.sequence.id row.contactId = true)
    (hstep : row.sequence.steps[row.currentStep]? = some st) :
    (∃ j, (processEmail rateAllowed calcNext retryDelay now row).1 = some j ∧
        j.scheduledTime = calcNext now st row.sequence.businessHours) ∧
      (processEmail rateAllowed calcNext retryDelay now row).2.currentStep
        = row.currentStep + 1 ∧
      (row.currentStep + 1 < row.sequence.steps.length →
        (processEmail rateAllowed calcNext retryDelay now row).2.nextScheduledAt
            = some (calcNext now st row.sequence.businessHours) ∧
          (processEmail rateAllowed calcNext retryDelay now row).2.completed = false ∧
          (processEmail rateAllowed calcNext retryDelay now row).2.completedAt = none) ∧
      (row.sequence.steps.length ≤ row.currentStep + 1 →
        (processEmail rateAllowed calcNext retryDelay now row).2.completed = true ∧
          (processEmail rateAllowed calcNext retryDelay now row).2.completedAt = some now ∧
          (processEmail rateAllowed calcNext retryDelay now row).2.nextScheduledAt = none) := by
  unfold processEmail
  rw [hrate, hstep]
  refine ⟨⟨_, rfl, rfl⟩, rfl, fun hlt => ?_, fun hle => ?_⟩
  · have hns : ¬ row.sequence.steps.length ≤ row.currentStep + 1 := by omega
    simp [hns]
  · simp [hle]

/-- **C4, witness** for the amended theorem at `rowAtStep0` (not the
last step: the row keeps a schedule and is not completed). -/
theorem processEmail_progress_update_witness :
    (∃ j, (processEmail allowAll schedCalc 300000 1000 rowAtStep0).1 = some j ∧
        j.scheduledTime = schedCalc 1000 stepImmediate none) ∧
      (processEmail allowAll schedCalc 300000 1000 rowAtStep0).2.currentStep = 1 ∧
      (processEmail allowAll schedCalc 300000 1000 rowAtStep0).2.nextScheduledAt
        = some (schedCalc 1000 stepImmediate none) ∧
      (processEmail allowAll schedCalc 300000 1000 rowAtStep0).2.completed = false := by
  obtain ⟨⟨j, hj, hjs⟩, hcs, hmid, _⟩ :=
    processEmail_progress_update allowAll schedCalc 300000 1000 rowAtStep0 stepImmediate
      (by decide) (by decide)
  obtain ⟨hns, hcomp, _⟩ := hmid (by decide)
  exact ⟨⟨j, hj, hjs⟩, hcs, hns, hcomp⟩

/-! ## Sequence reset (`resetSequence`, queue helper `src/unnamed/part_004`
lines 215-280, and `resetSequenceHandler`, controller lines 186-233) -/

/-- An `EmailTracking` row; `metaSequenceId` is `metadata.sequenceId`,
the JSON path the reset's `deleteMany` filters on. -/
structure TrackingRow where
  id : String
  metaSequenceId : String
  deriving Repr, DecidableEq

/-- An `EmailEvent` / `SequenceStats` / `SequenceHealth` row as far as
the reset is concerned: its `sequenceId` column. -/
structure SeqScopedRow where
  id : String
  sequenceId : String
  deriving Repr, DecidableEq

/-- A `SequenceContact` row with the columns the reset writes. -/
structure ResetSCRow where
  sequenceId : String
  contactId : String
  status : String
  currentStep : Nat
  nextScheduledAt : Option Nat
  completed : Bool
  startedAt : Option Nat
  lastProcessedAt : Option Nat
  completedAt : Option Nat
  threadId : Option String
  deriving Repr, DecidableEq

/-- A `Sequence` row as far as the reset handler is concerned. -/
structure SequenceRow where
  id : String
  userId : String
  status : String
  testMode : Bool
  deriving Repr, DecidableEq

/-- The store state touched by a reset. -/
structure ResetState where
  sequences : List SequenceRow
  sequenceContacts : List ResetSCRow
  emailTracking : List TrackingRow
  emailEvents : List SeqScopedRow
  sequenceStats : List SeqScopedRow
  sequenceHealth : List SeqScopedRow
  deriving Repr, DecidableEq

/-- `resetSequence(sequenceId)` (part_004 lines 215-280): delete the
tracking rows whose `metadata.sequenceId` matches, the email events,
stats and health rows of the sequence, and re-initialize every
`SequenceContact` of the sequence to `status = "pending"`,
`currentStep = 0`, `completed = false` and all timestamps (and the
thread id) null. -/
def resetSequence (sid : String) (st : ResetState) : ResetState :=
  { st with
      emailTracking := st.emailTracking.filter (fun t => t.metaSequenceId ≠ sid)
      emailEvents := st.emailEvents.filter (fun e => e.sequenceId ≠ sid)
      sequenceContacts := st.sequenceContacts.map (fun r =>
        if r.sequenceId = sid then
          { r with status := "pending", lastProcessedAt := none, completedAt := none,
                   threadId := none, currentStep := 0, nextScheduledAt := none,
                   completed := false, startedAt := none }
        else r)
      sequenceStats := st.sequenceStats.filter (fun s => s.sequenceId ≠ sid)
      sequenceHealth := st.sequenceHealth.filter (fun h => h.sequenceId ≠ sid) }

/-- `resetSequenceHandler` (controller lines 186-233): 404 when the
sequence is not owned by the requesting user, otherwise reset the
sequence data and set the sequence back to `status = "draft"`,
`testMode = false`.  Returns the HTTP status with the new state. -/
def resetSequenceHandler (sid userId : String) (st : ResetState) : Nat × ResetState :=
  match st.sequences.find? (fun s => s.id == sid && s.userId == userId) with
  | none => (404, st)
  | some _ =>
      let st2 := resetSequence sid st
      (200,
        { st2 with sequences := st2.sequences.map (fun s =>
            if s.id = sid then { s with status := "draft", testMode := false } else s) })

/-- Unconditional purity of `resetSequence` (helper for the handler
theorem): the reset state has no sequence-scoped rows left and every
contact row of the sequence re-initialized. -/
theorem resetSequence_purity (sid : String) (st : ResetState) :
    (∀ r ∈ (resetSequence sid st).sequenceContacts,
        r.sequenceId = sid →
          r.currentStep = 0 ∧ r.status = "pending" ∧ r.completed = false ∧
            r.startedAt = none ∧ r.lastProcessedAt = none ∧ r.completedAt = none ∧
            r.nextScheduledAt = none ∧ r.threadId = none) ∧
      (∀ t ∈ (resetSequence sid st).emailTracking, t.metaSequenceId ≠ sid) ∧
      (∀ e ∈ (resetSequence sid st).emailEvents, e.sequenceId ≠ sid) ∧
      (∀ s ∈ (resetSequence sid st).sequenceStats, s.sequenceId ≠ sid) ∧
      (∀ hrow ∈ (resetSequence sid st).sequenceHealth, hrow.sequenceId ≠ sid) := by
  refine ⟨?_, ?_, ?_, ?_, ?_⟩
  · intro r hr hrsid
    simp only [resetSequence, List.mem_map] at hr
    obtain ⟨orig, _, horig⟩ := hr
    by_cases hcase : orig.sequenceId = sid
    · rw [if_pos hcase] at horig
      rw [← horig]
      exact ⟨rfl, rfl, rfl, rfl, rfl, rfl, rfl, rfl⟩
    · rw [if_neg hcase] at horig
      rw [← horig] at hrsid
      exact absurd hrsid hcase
  · intro t ht
    simp only [resetSequence, List.mem_filter, decide_eq_true_eq] at ht
    exact ht.2
  · intro e he
    simp only [resetSequence, List.mem_filter, decide_eq_true_eq] at he
    exact he.2
  · intro s hs
    simp only [resetSequence, List.mem_filter, decide_eq_true_eq] at hs
    exact hs.2
  · intro hrow hh
    simp only [resetSequence, List.mem_filter, decide_eq_true_eq] at hh
    exact hh.2

/-- A one-sequence state mid-flight: a sent contact row, one tracking
row, one event, stats and health. -/
def resetStateEx : ResetState :=
  { sequences := [{ id := "seq1", userId := "u1", status := "active", testMode := true }],
    sequenceContacts := [
      { sequenceId := "seq1", contactId := "c1", status := "sent",
        currentStep := 1, nextScheduledAt := some 500, completed := false,
        startedAt := some 1, lastProcessedAt := some 2, completedAt := none,
        threadId := some "th1" }],
    emailTracking := [{ id := "tr1", metaSequenceId := "seq1" }],
    emailEvents := [{ id := "ev1", sequenceId := "seq1" }],
    sequenceStats := [{ id := "stats1", sequenceId := "seq1" }],
    sequenceHealth := [{ id := "h1", sequenceId := "seq1" }] }

/-- **C5, counterexample.** After a successful reset the contact rows
have `status = "pending"`, not `not_sent` as the claim states: the
`updateMany` of `resetSequence` writes `status: "pending"` (part_004
line 244), although the schema default for new rows is `"not_sent"`. -/
theorem resetSequence_status_pending_ce :
    (resetSequenceHandler "seq1" "u1" resetStateEx).1 = 200 ∧
      ((resetSequenceHandler "seq1" "u1" resetStateEx).2.sequenceContacts.map
        (fun r => r.status)) = ["pending"] ∧ "pending" ≠ "not_sent" := by
  refine ⟨by decide, by decide, by decide⟩

/-- **C5, amended.** After a successful `POST /sequences/{id}/reset`,
every `SequenceContact` row of the sequence has `currentStep = 0`,
`status = "pending"` (not `not_sent`), `completed = false` and all of
`startedAt`, `lastProcessedAt`, `completedAt`, `nextScheduledAt` (and
`threadId`) null, and no `EmailTracking`, `EmailEvent`, `SequenceStats`
or `SequenceHealth` row references the sequence id. -/
theorem resetSequenceHandler_purity (sid userId : String) (st : ResetState)
    (h200 : (resetSequenceHandler sid userId st).1 = 200) :
    (∀ r ∈ (resetSequenceHandler sid userId st).2.sequenceContacts,
        r.sequenceId = sid →
          r.currentStep = 0 ∧ r.status = "pending" ∧ r.completed = false ∧
            r.startedAt = none ∧ r.lastProcessedAt = none ∧ r.completedAt = none ∧
            r.nextScheduledAt = none ∧ r.threadId = none) ∧
      (∀ t ∈ (resetSequenceHandler sid userId st).2.emailTracking, t.metaSequenceId ≠ sid) ∧
      (∀ e ∈ (resetSequenceHandler sid userId st).2.emailEvents, e.sequenceId ≠ sid) ∧
      (∀ s ∈ (resetSequenceHandler sid userId st).2.sequenceStats, s.sequenceId ≠ sid) ∧
      (∀ hrow ∈ (resetSequenceHandler sid userId st).2.sequenceHealth,
        hrow.sequenceId ≠ sid) := by
  unfold resetSequenceHandler at h200 ⊢
  cases hfind : st.sequences.find? (fun s => s.id == sid && s.userId == userId) with
  | none =>
      rw [hfind] at h200
      simp at h200
  | some seqRow =>
      exact resetSequence_purity sid st

/-- **C5, witness** for the amended theorem at the concrete state. -/
theorem resetSequenceHandler_purity_witness :
    (∀ r ∈ (resetSequenceHandler "seq1" "u1" resetStateEx).2.sequenceContacts,
        r.sequenceId = "seq1" →
          r.currentStep = 0 ∧ r.status = "pending" ∧ r.completed = false ∧
            r.startedAt = none ∧ r.lastProcessedAt = none ∧ r.completedAt = none ∧
            r.nextScheduledAt = none ∧ r.threadId = none) ∧
      (∀ t ∈ (resetSequenceHandler "seq1" "u1" resetStateEx).2.emailTracking,
        t.metaSequenceId ≠ "seq1") ∧
      (∀ e ∈ (resetSequenceHandler "seq1" "u1" resetStateEx).2.emailEvents,
        e.sequenceId ≠ "seq1") ∧
      (∀ s ∈ (resetSequenceHandler "seq1" "u1" resetStateEx).2.sequenceStats,
        s.sequenceId ≠ "seq1") ∧
      (∀ hrow ∈ (resetSequenceHandler "seq1" "u1" resetStateEx).2.sequenceHealth,
        hrow.sequenceId ≠ "seq1") :=
  resetSequenceHandler_purity "seq1" "u1" resetStateEx (by decide)

/-! ## Tracking redirector (`apps/web/src/app/api/track/[...slug]/route.ts`) -/

/-- A `TrackedLink` row of a tracking event. -/
structure LinkRow where
  id : String
  originalUrl : String
  clickCount : Nat
  deriving Repr, DecidableEq

/-- A `LinkClick` row (append-only). -/
structure ClickRow where
  trackedLinkId : String
  deriving Repr, DecidableEq

/-- An `EmailTrackingEvent` row with its `links` relation, as selected by
`handleLinkClick` (lines 118-134). -/
structure TrackEventRow where
  hash : String
  links : List LinkRow
  deriving Repr, DecidableEq

/-- The store state touched by click tracking. -/
structure TrackState where
  trackingEvents : List TrackEventRow
  linkClicks : List ClickRow
  deriving Repr, DecidableEq

/-- Modelled from the spec: `recordLinkClick` lives in the
tracking-service module, absent from the source snapshot; per the spec it
appends a `LinkClick` row and increments the link's `clickCount`. -/
def recordLinkClick (lid : String) (st : TrackState) : TrackState :=
  { trackingEvents := st.trackingEvents.map (fun t =>
      { t with links := t.links.map (fun l =>
          if l.id = lid then { l with clickCount := l.clickCount + 1 } else l) }),
    linkClicks := { trackedLinkId := lid } :: st.linkClicks }

/-- Outcome of `handleLinkClick` before the route's catch: a throw with
its message, or the redirect. -/
inductive ClickOutcome where
  | error (msg : String)
  | redirect (url : String)
  deriving Repr, DecidableEq

/-- `handleLinkClick` (route lines 110-169): throw when `lid` is absent,
when no tracking row matches the hash, or when the row has no link with
that id (`links` filtered `where id = linkId`, first element); otherwise
record the click and redirect to the original URL. -/
def handleLinkClick (hash : String) (linkId : Option String) (st : TrackState) :
    ClickOutcome × TrackState :=
  match linkId with
  | none => (ClickOutcome.error "Missing link ID for click tracking", st)
  | some lid =>
      match st.trackingEvents.find? (fun t => t.hash == hash) with
      | none => (ClickOutcome.error "Invalid tracking hash", st)
      | some ev =>
          match (ev.links.filter (fun l => l.id == lid)).head? with
          | none => (ClickOutcome.error "Invalid link ID", st)
          | some link => (ClickOutcome.redirect link.originalUrl, recordLinkClick lid st)

/-- The HTTP response of the click route: the redirect
(`NextResponse.redirect`), the development-mode HTML error page
(`status: 400`, lines 210-264), or the production catch-all transparent
pixel (a plain `NextResponse` whose status defaults to 200,
lines 266-268). -/
inductive ClickResponse where
  | redirectTo (url : String)
  | errorDev
  | errorPixel
  deriving Repr, DecidableEq

/-- HTTP status of each response: the source sets `status: 400` only on
the development error page; the production pixel response carries the
default 200. -/
def clickResponseStatus : ClickResponse → Nat
  | ClickResponse.redirectTo _ => 307
  | ClickResponse.errorDev => 400
  | ClickResponse.errorPixel => 200

/-- The `GET` handler restricted to click requests (`action = "click"`,
lines 202-204 plus the catch block, lines 207-268): run
`handleLinkClick`, turning a throw into the development 400 page or the
production 200 pixel depending on `NODE_ENV`. -/
def getTrackClick (hash : String) (linkId : Option String) (isDev : Bool)
    (st : TrackState) : ClickResponse × TrackState :=
  match handleLinkClick hash linkId st with
  | (ClickOutcome.error _, st2) =>
      (if isDev then ClickResponse.errorDev else ClickResponse.errorPixel, st2)
  | (ClickOutcome.redirect url, st2) => (ClickResponse.redirectTo url, st2)

/-- A state with one tracking row and one link. -/
def trackStateEx : TrackState :=
  { trackingEvents := [
      { hash := "h1",
        links := [{ id := "l1", originalUrl := "https://example.com", clickCount := 0 }] }],
    linkClicks := [] }

/-- **C7, counterexample.** In production (`NODE_ENV` not
`development`), a click request without `lid` records no `LinkClick` but
responds 200 (the transparent-pixel catch-all), not 400 as the claim
states: only the development branch of the catch sets `status: 400`. -/
theorem getTrackClick_prod_status_ce :
    (getTrackClick "h1" none false trackStateEx).2.linkClicks = [] ∧
      clickResponseStatus (getTrackClick "h1" none false trackStateEx).1 = 200 ∧
      (200 : Nat) ≠ 400 := by
  refine ⟨by decide, by decide, by decide⟩

/-- **C7, amended.** When `lid` is absent, or the hash matches no
tracking row, or the tracking row has no link with id `lid`, the server
records no `LinkClick` (the store is untouched); it responds 400 only
when `NODE_ENV = development`, and in production answers 200 with a
transparent pixel. -/
theorem getTrackClick_failure (hash : String) (linkId : Option String) (isDev : Bool)
    (st : TrackState)
    (hfail : linkId = none ∨
      st.trackingEvents.find? (fun t => t.hash == hash) = none ∨
      (∃ lid ev, linkId = some lid ∧
        st.trackingEvents.find? (fun t => t.hash == hash) = some ev ∧
        (ev.links.filter (fun l => l.id == lid)).head? = none)) :
    (getTrackClick hash linkId isDev st).2 = st ∧
      (getTrackClick hash linkId isDev st).1
        = (if isDev then ClickResponse.errorDev else ClickResponse.errorPixel) ∧
      clickResponseStatus (getTrackClick hash linkId isDev st).1
        = (if isDev then 400 else 200) := by
  have herr : ∃ msg, handleLinkClick hash linkId st = (ClickOutcome.error msg, st) := by
    rcases hfail with h | h | h
    · exact ⟨"Missing link ID for click tracking", by rw [h]; rfl⟩
    · cases linkId with
      | none => exact ⟨"Missing link ID for click tracking", rfl⟩
      | some lid =>
          exact ⟨"Invalid tracking hash", by simp [handleLinkClick, h]⟩
    · obtain ⟨lid, ev, hlid, hfind, hhead⟩ := h
      exact ⟨"Invalid link ID", by simp [handleLinkClick, hlid, hfind, hhead]⟩
  obtain ⟨msg, hmsg⟩ := herr
  unfold getTrackClick
  rw [hmsg]
  refine ⟨rfl, rfl, ?_⟩
  cases isDev with
  | true => rfl
  | false => rfl

/-- **C7, witness** for the amended theorem: development mode, `lid`
absent — no click recorded and a 400 response. -/
theorem getTrackClick_failure_witness :
    (getTrackClick "h1" none true trackStateEx).2 = trackStateEx ∧
      (getTrackClick "h1" none true trackStateEx).1
        = (if true then ClickResponse.errorDev else ClickResponse.errorPixel) ∧
      clickResponseStatus (getTrackClick "h1" none true trackStateEx).1
        = (if true then 400 else 200) :=
  getTrackClick_failure "h1" none true trackStateEx (Or.inl rfl)

/-! ## Inbound Gmail event pipeline
(`apps/web/src/app/api/gmail/notifications/route.ts`)

The helpers `trackEmailEvent`, `updateSequenceStats`,
`extractPossibleMessageIds`, `shouldProcessMessage` and
`isSenderSequenceOwner` live in modules absent from the source snapshot
and are modelled from the spec where noted; the route's own logic (the
two reply paths, their dedup queries, the bounce handler and the guarded
status update) is embedded from the source. -/

/-- An `EmailThread` row. -/
structure ThreadRow where
  gmailThreadId : String
  firstMessageId : String
  userId : String
  sequenceId : String
  contactId : String
  contactEmail : String
  deriving Repr, DecidableEq

/-- An `EmailTrackingEvent` row (the tracking store of the web app). -/
structure PTrackRow where
  hash : String
  messageId : Option String
  userId : String
  sequenceId : String
  stepId : String
  contactId : String
  email : String
  deriving Repr, DecidableEq

/-- An `EmailEvent` row; `emailId` is the tracking hash,
`replyMessageId` the metadata key the reference-based dedup queries. -/
structure EventRow where
  emailId : String
  sequenceId : String
  contactId : String
  type : String
  replyMessageId : Option String
  deriving Repr, DecidableEq

/-- A `SequenceContact` row as the pipeline's status update sees it. -/
structure ContactStatusRow where
  sequenceId : String
  contactId : String
  status : String
  deriving Repr, DecidableEq

/-- One `updateSequenceStats` mutation (sequence, event kind, contact).
Modelled from the spec: the stats service (absent from the snapshot)
mutates counters; the model keeps the append-only log of mutations,
which suffices for the frame and update claims. -/
structure StatEntry where
  sequenceId : String
  event : String
  contactId : String
  deriving Repr, DecidableEq

/-- The store state touched by the inbound pipeline. -/
structure PState where
  threads : List ThreadRow
  trackings : List PTrackRow
  events : List EventRow
  contacts : List ContactStatusRow
  stats : List StatEntry
  deriving Repr, DecidableEq

/-- An inbound Gmail message as the pipeline reads it: id, thread,
labels, sender (after `extractEmailFromHeader`), and the Message-IDs of
its `References` and `In-Reply-To` headers. -/
structure InMsg where
  id : String
  threadId : Option String
  labelIds : List String
  fromEmail : String
  references : List String
  inReplyTo : List String
  deriving Repr, DecidableEq

/-- `updateSequenceContactStatus` of the notifications route
(lines 66-84): `updateMany` guarded by
`status notIn ["completed", status, "opted_out"]` — the excluded set
contains the *new* status, not a fixed `replied`. -/
def updateSequenceContactStatusWeb (sequenceId contactId status : String)
    (rows : List ContactStatusRow) : List ContactStatusRow :=
  rows.map (fun r =>
    if r.sequenceId = sequenceId ∧ r.contactId = contactId ∧
        ¬ (r.status = "completed" ∨ r.status = status ∨ r.status = "opted_out") then
      { r with status := status }
    else r)

/-- Modelled from the spec: `trackEmailEvent` (tracking-service module,
absent from the snapshot) appends one `EmailEvent` of the given type for
the tracking hash; event types are stored upper-cased (the route's dedup
queries compare against `"REPLIED"`/`"BOUNCED"`). -/
def trackEmailEvent (hash type sequenceId contactId : String)
    (replyMessageId : Option String) (st : PState) : PState :=
  { st with events :=
      { emailId := hash, sequenceId := sequenceId, contactId := contactId,
        type := strToUpper type, replyMessageId := replyMessageId } :: st.events }

/-- Modelled from the spec: `updateSequenceStats` records one stats
mutation for the sequence/contact. -/
def updateSequenceStats (sequenceId event contactId : String) (st : PState) : PState :=
  { st with stats :=
      { sequenceId := sequenceId, event := event, contactId := contactId } :: st.stats }

/-- `findTrackingEvent` (route lines 299-306). -/
def findTrackingEvent (messageId userId : String) (st : PState) : Option PTrackRow :=
  st.trackings.find? (fun t => t.messageId == some messageId && t.userId == userId)

/-- `hasExistingReplyEvent` (route lines 449-457): any `REPLIED` event
for the (sequence, contact). -/
def hasExistingReplyEvent (sequenceId contactId : String) (st : PState) : Option EventRow :=
  st.events.find? (fun e =>
    e.sequenceId == sequenceId && e.contactId == contactId && e.type == "REPLIED")

/-- `hasExistingReply` (route lines 463-474): a `REPLIED` event for the
hash whose `metadata.replyMessageId` equals the message id. -/
def hasExistingReply (hash messageId : String) (st : PState) : Option EventRow :=
  st.events.find? (fun e =>
    e.emailId == hash && e.type == "REPLIED" && e.replyMessageId == some messageId)

/-- `processReplyEvent` (route lines 480-522): record the replied event
under the tracking hash with the thread's sequence/contact, bump the
stats, and apply the guarded status update to `replied`. -/
def processReplyEvent (te : PTrackRow) (msg : InMsg) (_threadId : String)
    (thread : ThreadRow) (st : PState) : PState :=
  let st1 := trackEmailEvent te.hash "replied" thread.sequenceId thread.contactId
    (some msg.id) st
  let st2 := updateSequenceStats thread.sequenceId "replied" thread.contactId st1
  { st2 with
      contacts := updateSequenceContactStatusWeb thread.sequenceId thread.contactId
        "replied" st2.contacts }

/-- `trackReplyEvent` (route lines 528-557): record the replied event
under the tracking row's own sequence/contact — and nothing else. -/
def trackReplyEvent (te : PTrackRow) (msg : InMsg) (_threadId : String)
    (st : PState) : PState :=
  trackEmailEvent te.hash "replied" te.sequenceId te.contactId (some msg.id) st

/-- `processThreadBasedReply` (route lines 365-406): thread lookup by
Gmail thread id, tracking lookup by the thread's first Message-ID,
per-(sequence, contact) dedup, then `processReplyEvent`.  Returns
whether the thread path handled the message. -/
def processThreadBasedReply (userId : String) (msg : InMsg) (threadId : String)
    (st : PState) : Bool × PState :=
  match st.threads.find? (fun t => t.gmailThreadId == threadId) with
  | none => (false, st)
  | some thread =>
      match findTrackingEvent thread.firstMessageId userId st with
      | none => (false, st)
      | some te =>
          match hasExistingReplyEvent thread.sequenceId thread.contactId st with
          | some _ => (false, st)
          | none => (true, processReplyEvent te msg threadId thread st)

/-- `processReferenceBasedReply` (route lines 411-443):
`extractPossibleMessageIds` is modelled from the spec as the Message-IDs
of `References` and `In-Reply-To`; tracking lookup by any of those ids,
per-(hash, replyMessageId) dedup, then `trackReplyEvent`. -/
def processReferenceBasedReply (userId : String) (msg : InMsg) (threadId : String)
    (st : PState) : PState :=
  let possibleMessageIds := msg.references ++ msg.inReplyTo
  if possibleMessageIds.isEmpty then st
  else
    match st.trackings.find? (fun t =>
        (match t.messageId with
          | some m => possibleMessageIds.contains m
          | none => false) && t.userId == userId) with
    | none => st
    | some te =>
        match hasExistingReply te.hash msg.id st with
        | some _ => st
        | none => trackReplyEvent te msg threadId st

/-- Modelled from the spec: `shouldProcessMessage` skips messages whose
labels include `DRAFT` or `SENT`. -/
def shouldProcessMessage (labelIds : List String) : Bool :=
  !(labelIds.contains "DRAFT" || labelIds.contains "SENT")

/-- `processMessageForReplies` (route lines 146-204): early returns
(no thread id, draft/sent labels, sender is the sequence owner — the
owner check modelled from the spec as From-address equality), then the
thread-based path, and the reference-based path only when the former
found nothing. -/
def processMessageForReplies (userId ownerEmail : String) (msg : InMsg)
    (st : PState) : PState :=
  match msg.threadId with
  | none => st
  | some threadId =>
      if !shouldProcessMessage msg.labelIds then st
      else if msg.fromEmail == ownerEmail then st
      else
        match processThreadBasedReply userId msg threadId st with
        | (true, st2) => st2
        | (false, st2) => processReferenceBasedReply userId msg threadId st2

/-- `processBounceEvent` (route lines 312-355): record the bounced event
under the thread's sequence/contact, bump the stats, and apply the
guarded status update to `bounced`. -/
def processBounceEvent (te : PTrackRow) (thread : ThreadRow) (_messageId : String)
    (st : PState) : PState :=
  let st1 := trackEmailEvent te.hash "bounced" thread.sequenceId thread.contactId none st
  let st2 := updateSequenceStats thread.sequenceId "bounced" thread.contactId st1
  { st2 with
      contacts := updateSequenceContactStatusWeb thread.sequenceId thread.contactId
        "bounced" st2.contacts }

/-! ## C8: guarded status transitions -/

/-- **C8, amended.** Every status transition performed by the inbound
pipeline goes through `updateSequenceContactStatus`, whose guard is
`status NOT IN (completed, <the new status>, opted_out)` — the excluded
set contains the status being written, not a fixed `replied`.  A row
whose status is in that set (or whose keys do not match) is untouched;
any other matching row is overwritten, so a `replied` row is protected
against a repeated `replied` update but *is* overwritten by a `bounced`
one. -/
theorem updateSequenceContactStatusWeb_guard (rows : List ContactStatusRow)
    (sid cid ns : String) (i : Nat) (r : ContactStatusRow)
    (hr : rows[i]? = some r) :
    ((r.status = "completed" ∨ r.status = ns ∨ r.status = "opted_out") →
        (updateSequenceContactStatusWeb sid cid ns rows)[i]? = some r) ∧
      (r.sequenceId = sid → r.contactId = cid →
        ¬ (r.status = "completed" ∨ r.status = ns ∨ r.status = "opted_out") →
        (updateSequenceContactStatusWeb sid cid ns rows)[i]?
          = some { r with status := ns }) := by
  unfold updateSequenceContactStatusWeb
  rw [List.getElem?_map, hr, Option.map_some']
  constructor
  · intro hguard
    rw [if_neg]
    intro hcond
    exact hcond.2.2 hguard
  · intro hsid hcid hguard
    rw [if_pos ⟨hsid, hcid, hguard⟩]

/-- A replied progress row for sequence `s`, contact `c`. -/
def repliedContactRow : ContactStatusRow :=
  { sequenceId := "s", contactId := "c", status := "replied" }

/-- **C8, witness** for the guard theorem: the `bounced` update
overwrites the replied row because `replied` is not in the excluded set
`{completed, bounced, opted_out}`. -/
theorem updateSequenceContactStatusWeb_guard_witness :
    (updateSequenceContactStatusWeb "s" "c" "bounced" [repliedContactRow])[0]?
      = some { repliedContactRow with status := "bounced" } :=
  (updateSequenceContactStatusWeb_guard [repliedContactRow] "s" "c" "bounced" 0
    repliedContactRow rfl).2 rfl rfl (by decide)

/-- The tracking row of the bounced send. -/
def teBounce : PTrackRow :=
  { hash := "hb", messageId := some "M0", userId := "u", sequenceId := "s",
    stepId := "p0", contactId := "c", email := "a@ex.com" }

/-- The email thread of sequence `s`, contact `c`. -/
def threadSC : ThreadRow :=
  { gmailThreadId := "th", firstMessageId := "M0", userId := "u",
    sequenceId := "s", contactId := "c", contactEmail := "a@ex.com" }

/-- A pipeline state whose only contact row is already `replied`. -/
def pstateReplied : PState :=
  { threads := [threadSC], trackings := [teBounce], events := [],
    contacts := [repliedContactRow], stats := [] }

/-- **C8, counterexample.** A later bounce classification overwrites a
replied row: `processBounceEvent` updates with `status = "bounced"`,
whose guard excludes only `{completed, bounced, opted_out}` — `replied`
is not protected, contradicting the claim's fixed
`NOT IN (completed, replied, opted_out)` guard. -/
theorem processBounceEvent_overwrites_replied_ce :
    ((processBounceEvent teBounce threadSC "m9" pstateReplied).contacts.map
      (fun r => r.status)) = ["bounced"] ∧ "bounced" ≠ "replied" := by
  refine ⟨by decide, by decide⟩

/-! ## C9: reply idempotence -/

/-- Structure of the thread-based path: it either leaves the state
untouched (reporting `false`) or, when the thread and tracking rows
exist and no `REPLIED` event for the thread's (sequence, contact) is
present, hands over to `processReplyEvent`. -/
theorem processThreadBasedReply_spec (userId : String) (msg : InMsg) (tid : String)
    (st : PState) :
    processThreadBasedReply userId msg tid st = (false, st) ∨
      ∃ thread te,
        st.threads.find? (fun t => t.gmailThreadId == tid) = some thread ∧
          hasExistingReplyEvent thread.sequenceId thread.contactId st = none ∧
          processThreadBasedReply userId msg tid st
            = (true, processReplyEvent te msg tid thread st) := by
  unfold processThreadBasedReply
  cases h1 : st.threads.find? (fun t => t.gmailThreadId == tid) with
  | none => exact Or.inl rfl
  | some thread =>
      dsimp only
      cases h2 : findTrackingEvent thread.firstMessageId userId st with
      | none => exact Or.inl rfl
      | some te =>
          dsimp only
          cases h3 : hasExistingReplyEvent thread.sequenceId thread.contactId st with
          | some e => exact Or.inl rfl
          | none => exact Or.inr ⟨thread, te, rfl, h3, rfl⟩

/-- Structure of the reference-based path: it either leaves the state
untouched or, when a tracking row matches one of the referenced
Message-IDs and no `REPLIED` event with that (hash, replyMessageId)
exists, hands over to `trackReplyEvent`. -/
theorem processReferenceBasedReply_spec (userId : String) (msg : InMsg) (tid : String)
    (st : PState) :
    processReferenceBasedReply userId msg tid st = st ∨
      ∃ te,
        hasExistingReply te.hash msg.id st = none ∧
          processReferenceBasedReply userId msg tid st = trackReplyEvent te msg tid st := by
  unfold processReferenceBasedReply
  by_cases h0 : (msg.references ++ msg.inReplyTo).isEmpty = true
  · rw [if_pos h0]
    exact Or.inl rfl
  · rw [if_neg h0]
    cases h1 : st.trackings.find? (fun t =>
        (match t.messageId with
          | some m => (msg.references ++ msg.inReplyTo).contains m
          | none => false) && t.userId == userId) with
    | none => exact Or.inl rfl
    | some te =>
        dsimp only
        cases h2 : hasExistingReply te.hash msg.id st with
        | some e => exact Or.inl rfl
        | none => exact Or.inr ⟨te, h2, rfl⟩

/-- **C9, amended.** One ingestion of a message appends at most one
`REPLIED` event, and every append is guarded by exactly one of the two
dedup checks: the thread-based path requires that *no* `REPLIED` event
for its (sequenceId, contactId) exist, the reference-based path that no
`REPLIED` event with its (tracking hash, replyMessageId) exist.  The
guards have different keys, so re-ingesting the same notification adds
nothing when the reference lookup resolves the already-recorded tracking
row, but can add a second `REPLIED` event for the same (sequenceId,
contactId) when it resolves a different tracking row (a different hash)
of the same contact. -/
theorem processMessageForReplies_dedup (userId ownerEmail : String) (msg : InMsg)
    (st : PState) :
    (processMessageForReplies userId ownerEmail msg st).events = st.events ∨
      ∃ e, (processMessageForReplies userId ownerEmail msg st).events = e :: st.events ∧
        e.type = "REPLIED" ∧ e.replyMessageId = some msg.id ∧
        (hasExistingReplyEvent e.sequenceId e.contactId st = none ∨
          hasExistingReply e.emailId msg.id st = none) := by
  unfold processMessageForReplies
  cases hmt : msg.threadId with
  | none => exact Or.inl rfl
  | some tid =>
      dsimp only
      by_cases h1 : (!shouldProcessMessage msg.labelIds) = true
      · rw [if_pos h1]
        exact Or.inl rfl
      · rw [if_neg h1]
        by_cases h2 : (msg.fromEmail == ownerEmail) = true
        · rw [if_pos h2]
          exact Or.inl rfl
        · rw [if_neg h2]
          rcases processThreadBasedReply_spec userId msg tid st with hth | hth
          · rw [hth]
            dsimp only
            rcases processReferenceBasedReply_spec userId msg tid st with href | href
            · rw [href]
              exact Or.inl rfl
            · obtain ⟨te, hdedup, heq⟩ := href
              rw [heq]
              exact Or.inr ⟨_, rfl, rfl, rfl, Or.inr hdedup⟩
          · obtain ⟨thread, te, hfind, hdedup, heq⟩ := hth
            rw [heq]
            dsimp only
            exact Or.inr ⟨_, rfl, rfl, rfl, Or.inl hdedup⟩

/-- Tracking row of the step-0 send (hash `h0`, Message-ID `M0`). -/
def teStep0 : PTrackRow :=
  { hash := "h0", messageId := some "M0", userId := "u", sequenceId := "s",
    stepId := "p0", contactId := "c", email := "a@ex.com" }

/-- Tracking row of the step-1 send of the same contact (hash `h1`,
Message-ID `M1`). -/
def teStep1 : PTrackRow :=
  { hash := "h1", messageId := some "M1", userId := "u", sequenceId := "s",
    stepId := "p1", contactId := "c", email := "a@ex.com" }

/-- The pipeline state after two sends to contact `c`: one thread (first
message `M0`) and two tracking rows, no events yet. -/
def pstateTwoSends : PState :=
  { threads := [threadSC], trackings := [teStep0, teStep1], events := [],
    contacts := [{ sequenceId := "s", contactId := "c", status := "sent" }],
    stats := [] }

/-- The contact's reply in thread `th`, referencing the step-1 message
`M1`. -/
def msgReply : InMsg :=
  { id := "R", threadId := some "th", labelIds := ["INBOX"],
    fromEmail := "a@ex.com", references := ["M1"], inReplyTo := [] }

/-- Count of `REPLIED` events for a (sequence, contact). -/
def countReplied (st : PState) (sid cid : String) : Nat :=
  (st.events.filter (fun e =>
    e.sequenceId == sid && e.contactId == cid && e.type == "REPLIED")).length

/-- **C9, counterexample.** Ingesting the same notification twice
records *two* `REPLIED` events for (sequence `s`, contact `c`): the
first ingestion succeeds on the thread-based path (hash `h0`); on the
second, the thread-based path is blocked by its (sequence, contact)
dedup, but the reference-based path resolves the reply's `References`
header to the step-1 tracking row (hash `h1`), and its dedup — keyed by
(hash, replyMessageId) — does not see the `h0` event, so it records a
second one. -/
theorem processMessageForReplies_double_ingest_ce :
    countReplied
        (processMessageForReplies "u" "owner@ex.com" msgReply
          (processMessageForReplies "u" "owner@ex.com" msgReply pstateTwoSends))
        "s" "c" = 2 ∧ (1 : Nat) < 2 := by
  refine ⟨by decide, by decide⟩

/-! ## C10: frame of the reference-based path -/

/-- **C10.** The reference-based reply path never touches
`SequenceContact.status` or `SequenceStats`: whatever it does, the
`contacts` and `stats` tables are unchanged and at most one `REPLIED`
event is appended.  Only the thread-based path updates them: whenever it
reports success, the resulting state carries the guarded `replied`
status update and the `replied` stats mutation for the matched thread's
(sequence, contact). -/
theorem processReferenceBasedReply_frame (userId : String) (msg : InMsg) (tid : String)
    (st : PState) :
    ((processReferenceBasedReply userId msg tid st).contacts = st.contacts ∧
        (processReferenceBasedReply userId msg tid st).stats = st.stats ∧
        ((processReferenceBasedReply userId msg tid st).events = st.events ∨
          ∃ e, (processReferenceBasedReply userId msg tid st).events = e :: st.events ∧
            e.type = "REPLIED")) ∧
      (∀ st2, processThreadBasedReply userId msg tid st = (true, st2) →
        ∃ thread,
          st.threads.find? (fun t => t.gmailThreadId == tid) = some thread ∧
            st2.contacts = updateSequenceContactStatusWeb thread.sequenceId
              thread.contactId "replied" st.contacts ∧
            st2.stats
              = { sequenceId := thread.sequenceId, event := "replied",
                  contactId := thread.contactId } :: st.stats) := by
  constructor
  · rcases processReferenceBasedReply_spec userId msg tid st with href | href
    · rw [href]
      exact ⟨rfl, rfl, Or.inl rfl⟩
    · obtain ⟨te, _, heq⟩ := href
      rw [heq]
      exact ⟨rfl, rfl, Or.inr ⟨_, rfl, rfl⟩⟩
  · intro st2 hsucc
    rcases processThreadBasedReply_spec userId msg tid st with hth | hth
    · rw [hth] at hsucc
      exact absurd (congrArg Prod.fst hsucc) (by simp)
    · obtain ⟨thread, te, hfind, _, heq⟩ := hth
      rw [heq] at hsucc
      have hst2 : st2 = processReplyEvent te msg tid thread st :=
        (congrArg Prod.snd hsucc).symm
      exact ⟨thread, hfind, by rw [hst2]; rfl, by rw [hst2]; rfl⟩

/-- **C10, witness**: on the two-send state, the thread-based path
succeeds for the reply and the resulting state carries the status and
stats updates; the theorem applied at that concrete success. -/
theorem processReferenceBasedReply_frame_witness :
    ∃ thread,
      pstateTwoSends.threads.find? (fun t => t.gmailThreadId == "th") = some thread ∧
        (processThreadBasedReply "u" msgReply "th" pstateTwoSends).2.contacts
          = updateSequenceContactStatusWeb thread.sequenceId thread.contactId "replied"
              pstateTwoSends.contacts ∧
        (processThreadBasedReply "u" msgReply "th" pstateTwoSends).2.stats
          = { sequenceId := thread.sequenceId, event := "replied",
              contactId := thread.contactId } :: pstateTwoSends.stats :=
  (processReferenceBasedReply_frame "u" msgReply "th" pstateTwoSends).2
    (processThreadBasedReply "u" msgReply "th" pstateTwoSends).2 (by decide)
